import Mathlib

/-!
Shallow embedding of `psycopg/_dns.py` (class `Rfc2782Resolver`): SRV-based
resolution of connection parameters per RFC 2782.

Python strings are modelled as Lean `String`; the global random source
(`random.randint(0, total_weight)`) is modelled as a stream `draws : Nat → Nat`
together with a draw counter threaded through the computation, so that the
k-th call of `randint` returns `draws k`.  DNS lookup (the dnspython resolver,
with `DNSException` already mapped to an empty answer list, as done by
`_resolve_srv` / `_resolve_srv_async`) is abstracted as a function
`lookup : String → List SRVRec`.
-/

/-- One SRV resource record as seen by the code: dnspython's `SRV` rdata with
`priority`, `weight`, `port` integers and the textual form of `target`
(`str(entry.target)`, e.g. `"pg1.example.com."`). -/
structure SRVRec where
  priority : Nat
  weight : Nat
  port : Nat
  target : String
deriving DecidableEq, Repr, Inhabited

/-- `HostPort` named tuple from `_dns.py` (defaults `totry=False`, `target=None`). -/
structure HostPort where
  host : String
  port : String
  totry : Bool := false
  target : Option String := none
deriving DecidableEq, Repr

/-- The two `OperationalError`s raised in `_dns.py`: the host/port length
mismatch of `_get_attempts` and the empty-result error of `_return_params`. -/
inductive PGError where
  /-- `cannot match {len(hosts_in)} hosts with {len(ports_in)} port numbers` -/
  | cannotMatch (nhosts nports : Nat)
  /-- `no host found after SRV RR lookup` -/
  | noHostFound
deriving DecidableEq, Repr

/-- The connection parameter dict restricted to the keys `_dns.py` reads or
writes (`host`, `port`, `hostaddr`); all other keys are carried opaquely in
`others` (they are copied unchanged by `params.copy()`).  `none` models a key
absent from the dict. -/
structure Params where
  host : Option String
  port : Option String
  hostaddr : Option String
  others : List (String × String)
deriving DecidableEq, Repr

/-- The environment variables consulted by `_get_attempts`
(`os.environ.get(name, "")`: an unset variable is the empty string). -/
structure Env where
  pghostaddr : String
  pghost : String
  pgport : String
deriving DecidableEq, Repr

deriving instance DecidableEq for Except

/-- Python `str.lower()` (ASCII case folding, which is all the code compares). -/
def str_lower (s : String) : String :=
  String.mk (s.data.map Char.toLower)

/-- Python `str.rstrip(".")`: drop every trailing dot. -/
def strip_dots (s : String) : String :=
  String.mk ((s.data.reverse.dropWhile (fun c => c = '.')).reverse)

/-- Python `str.split(",")` on a character list; never returns `[]`
(`"".split(",") == [""]`). -/
def split_comma_chars : List Char → List (List Char)
  | [] => [[]]
  | c :: cs =>
    if c = ',' then [] :: split_comma_chars cs
    else
      match split_comma_chars cs with
      | [] => [[c]]
      | g :: gs => (c :: g) :: gs

/-- Python `str.split(",")`. -/
def split_comma (s : String) : List String :=
  (split_comma_chars s.data).map String.mk

/-- The match of `re_srv_rr = ^(_[^\.]+)\.(_[^\.]+)\.(.+)` against a host name
(`re.match`: anchored at the start only), returning the `target` group when the
pattern matches.  `[^\.]+` is a maximal non-empty run of non-dot characters;
the final `.+` is a non-empty run of non-newline characters. -/
def match_srv_rr (host : String) : Option String :=
  match host.data with
  | [] => none
  | c0 :: cs =>
    if c0 = '_' then
      let svc := cs.takeWhile (fun c => c ≠ '.')
      if svc = [] then none
      else
        match cs.dropWhile (fun c => c ≠ '.') with
        | '.' :: '_' :: cs2 =>
          let proto := cs2.takeWhile (fun c => c ≠ '.')
          if proto = [] then none
          else
            match cs2.dropWhile (fun c => c ≠ '.') with
            | '.' :: rest =>
              let tgt := rest.takeWhile (fun c => c ≠ '\n')
              if tgt = [] then none else some (String.mk tgt)
            | _ => none
        | _ => none
    else none

/-- The body of the classification loop of `_get_attempts`: build the
`HostPort` for one `(host, port)` pair.  `totry` is set when the SRV name
pattern matches or the port is `"srv"` case-insensitively; `target` is set
only from the pattern match. -/
def classify_pair (host port : String) : HostPort :=
  match match_srv_rr host with
  | some t => { host := host, port := port, totry := true, target := some t }
  | none =>
    if str_lower port = "srv" then { host := host, port := port, totry := true, target := none }
    else { host := host, port := port }

/-- `if len(ports_in) == 1: ports_in *= len(hosts_in)`: a single port applies
to all the hosts. -/
def broadcast_ports (hosts_in ports_in : List String) : List String :=
  if ports_in.length = 1 then List.replicate hosts_in.length (ports_in.headD "")
  else ports_in

/-- `Rfc2782Resolver._get_attempts`: decide per host whether SRV lookup must be
tried.  Returns `[]` when `hostaddr` is non-empty or when no host needs SRV
lookup; raises `OperationalError` when the host and port lists cannot be
matched. -/
def get_attempts (env : Env) (params : Params) : Except PGError (List HostPort) :=
  if (params.hostaddr.getD env.pghostaddr) ≠ "" then Except.ok []
  else
    let hosts_in := split_comma (params.host.getD env.pghost)
    let ports_in := broadcast_ports hosts_in (split_comma (params.port.getD env.pgport))
    if ports_in.length ≠ hosts_in.length then
      Except.error (PGError.cannotMatch hosts_in.length ports_in.length)
    else
      let out := (hosts_in.zip ports_in).map (fun hp => classify_pair hp.1 hp.2)
      if out.any (fun hp => hp.totry) then Except.ok out else Except.ok []

/-- Sum of the weights of the remaining entries (`total_weight` in
`sort_rfc2782`, recomputed: the code keeps it by subtraction, which agrees). -/
def weight_sum (es : List SRVRec) : Nat :=
  (es.map (fun e => e.weight)).sum

/-- The inner `for i, ent in enumerate(entries codice)` walk of `sort_rfc2782`:
accumulate `csum`, stop at the first entry with `csum >= r`, and return that
entry together with the remaining list (`del entries[i]`).  When no entry
reaches `r` the Python loop falls through with the last entry selected, which
is the `[e]` base case here. -/
def select_walk : List SRVRec → Nat → Nat → SRVRec × List SRVRec
  | [], _, _ => (default, [])
  | [e], _, _ => (e, [])
  | e :: e2 :: es, csum, r =>
    if csum + e.weight ≥ r then (e, e2 :: es)
    else
      let s := select_walk (e2 :: es) (csum + e.weight) r
      (s.1, e :: s.2)

/-- The `while entries:` loop of `sort_rfc2782` for one priority tier: draw
`r = draws k`, select and remove one entry, repeat.  `fuel` is the length of
the (weight-sorted) tier; the second component is the draw counter after the
tier. -/
def tier_loop (draws : Nat → Nat) : Nat → List SRVRec → Nat → List SRVRec × Nat
  | 0, _, k => ([], k)
  | _ + 1, [], k => ([], k)
  | fuel + 1, e :: es, k =>
    let s := select_walk (e :: es) 0 (draws k)
    let res := tier_loop draws fuel s.2 (k + 1)
    (s.1 :: res.1, res.2)

/-- `entries.sort(key=lambda ent: ent.weight)`: a stable ascending sort by
weight (insertion sort with `≤` is the stable sort, as is Python's). -/
def sort_by_weight (es : List SRVRec) : List SRVRec :=
  List.insertionSort (fun a b => a.weight ≤ b.weight) es

/-- The body of the per-tier `for pri, entries in sorted(...)` loop of
`sort_rfc2782`: a single entry is emitted as is, a longer tier is sorted by
weight and drained by the weighted random walk. -/
def process_tier (draws : Nat → Nat) (entries : List SRVRec) (k : Nat) :
    List SRVRec × Nat :=
  if entries.length = 1 then (entries, k)
  else tier_loop draws (sort_by_weight entries).length (sort_by_weight entries) k

/-- The keys of `sorted(priorities.items())`: the distinct priorities present
in the answer, in ascending order.  (`defaultdict` keys appear in first-insertion
order; `dedup` keeps first occurrences and `sorted` orders them.) -/
def sorted_priorities (ans : List SRVRec) : List Nat :=
  List.insertionSort (fun a b => a ≤ b) ((ans.map (fun e => e.priority)).dedup)

/-- The outer `for pri, entries in sorted(priorities.items())` loop of
`sort_rfc2782`; the tier of priority `p` is the sublist of `ans` with that
priority, in answer order (exactly what the `defaultdict` grouping built). -/
def sort_tiers (draws : Nat → Nat) (ans : List SRVRec) :
    List Nat → Nat → List SRVRec × Nat
  | [], k => ([], k)
  | p :: ps, k =>
    let t := process_tier draws (ans.filter (fun e => e.priority = p)) k
    let res := sort_tiers draws ans ps t.2
    (t.1 ++ res.1, res.2)

/-- `Rfc2782Resolver.sort_rfc2782`: the RFC 2782 priority/weight ordering of an
answer list, with the random source `draws` consumed from index `k` on.
Returns the ordered entries and the final draw counter. -/
def sort_rfc2782 (draws : Nat → Nat) (ans : List SRVRec) (k : Nat) :
    List SRVRec × Nat :=
  sort_tiers draws ans (sorted_priorities ans) k

/-- `Rfc2782Resolver._get_solved_entries`: turn the SRV answer for one flagged
`HostPort` into replacement records (empty answer: fall back to the parsed
target unless the port is `"srv"`; a single root-domain answer: abort;
otherwise map the RFC 2782 ordering).  `hp.target` is truthy in Python iff it
is a non-`None`, non-empty string. -/
def get_solved_entries (draws : Nat → Nat) (hp : HostPort) (entries : List SRVRec)
    (k : Nat) : List HostPort × Nat :=
  if entries.isEmpty then
    match hp.target with
    | some t =>
      if t ≠ "" ∧ str_lower hp.port ≠ "srv" then ([{ host := t, port := hp.port }], k)
      else ([], k)
    | none => ([], k)
  else if entries.length = 1 ∧ (entries.headD default).target = "." then ([], k)
  else
    let s := sort_rfc2782 draws entries k
    (s.1.map (fun ent =>
      { host := strip_dots ent.target, port := toString ent.port }), s.2)

/-- `Rfc2782Resolver._resolve_srv` with the dnspython call abstracted:
`lookup hp.host` is the answer list, a `DNSException` already replaced by
`[]`. -/
def resolve_srv_hp (lookup : String → List SRVRec) (draws : Nat → Nat)
    (hp : HostPort) (k : Nat) : List HostPort × Nat :=
  get_solved_entries draws hp (lookup hp.host) k

/-- `Rfc2782Resolver._resolve_srv_async`, identical to `resolve_srv_hp` after
abstracting the (async) dnspython call. -/
def resolve_srv_hp_async (lookup : String → List SRVRec) (draws : Nat → Nat)
    (hp : HostPort) (k : Nat) : List HostPort × Nat :=
  get_solved_entries draws hp (lookup hp.host) k

/-- The `for hp in attempts` loop of `Rfc2782Resolver.resolve`: flagged entries
are replaced by their SRV resolution, pass-through entries are appended as
they are. -/
def resolve_loop (lookup : String → List SRVRec) (draws : Nat → Nat) :
    List HostPort → Nat → List HostPort × Nat
  | [], k => ([], k)
  | hp :: rest, k =>
    if hp.totry then
      let sol := resolve_srv_hp lookup draws hp k
      let res := resolve_loop lookup draws rest sol.2
      (sol.1 ++ res.1, res.2)
    else
      let res := resolve_loop lookup draws rest k
      (hp :: res.1, res.2)

/-- The `for hp in attempts` loop of `Rfc2782Resolver.resolve_async`. -/
def resolve_loop_async (lookup : String → List SRVRec) (draws : Nat → Nat) :
    List HostPort → Nat → List HostPort × Nat
  | [], k => ([], k)
  | hp :: rest, k =>
    if hp.totry then
      let sol := resolve_srv_hp_async lookup draws hp k
      let res := resolve_loop_async lookup draws rest sol.2
      (sol.1 ++ res.1, res.2)
    else
      let res := resolve_loop_async lookup draws rest k
      (hp :: res.1, res.2)

/-- `Rfc2782Resolver._return_params`: fail on an empty record list, otherwise
copy the params with `host` and `port` replaced by the comma-joined lists. -/
def return_params (params : Params) (hps : List HostPort) : Except PGError Params :=
  if hps.isEmpty then Except.error PGError.noHostFound
  else
    Except.ok
      { params with
        host := some (String.intercalate "," (hps.map (fun hp => hp.host)))
        port := some (String.intercalate "," (hps.map (fun hp => hp.port))) }

/-- `Rfc2782Resolver.resolve`: classify, resolve each flagged host, rebuild. -/
def resolve (env : Env) (lookup : String → List SRVRec) (draws : Nat → Nat)
    (params : Params) : Except PGError Params :=
  match get_attempts env params with
  | Except.error err => Except.error err
  | Except.ok [] => Except.ok params
  | Except.ok (a :: rest) =>
    return_params params (resolve_loop lookup draws (a :: rest) 0).1

/-- `Rfc2782Resolver.resolve_async`: the suspension-based twin of `resolve`. -/
def resolve_async (env : Env) (lookup : String → List SRVRec) (draws : Nat → Nat)
    (params : Params) : Except PGError Params :=
  match get_attempts env params with
  | Except.error err => Except.error err
  | Except.ok [] => Except.ok params
  | Except.ok (a :: rest) =>
    return_params params (resolve_loop_async lookup draws (a :: rest) 0).1

/-- Modelled from the spec: the documented per-tier walk step — "select the
first entry whose cumulative sum reaches or exceeds `r`" — returning that
entry and the remaining set, or `none` when no entry reaches `r`. -/
def spec_select : List SRVRec → Nat → Nat → Option (SRVRec × List SRVRec)
  | [], _, _ => none
  | e :: es, csum, r =>
    if csum + e.weight ≥ r then some (e, es)
    else (spec_select es (csum + e.weight) r).map (fun s => (s.1, e :: s.2))

/-- Modelled from the spec: the documented tier walk — emit the selected entry,
remove it, and repeat until the tier is exhausted (stopping if a draw selects
no entry). -/
def spec_walk_aux (draws : Nat → Nat) : Nat → List SRVRec → Nat → List SRVRec
  | 0, _, _ => []
  | _ + 1, [], _ => []
  | fuel + 1, e :: es, k =>
    match spec_select (e :: es) 0 (draws k) with
    | none => []
    | some s => s.1 :: spec_walk_aux draws fuel s.2 (k + 1)

/-- Modelled from the spec: the documented weighted selection without
replacement for one tier — sort by ascending weight, then walk with draws
`draws k, draws (k+1), ...`. -/
def spec_tier_walk (draws : Nat → Nat) (es : List SRVRec) (k : Nat) : List SRVRec :=
  spec_walk_aux draws (sort_by_weight es).length (sort_by_weight es) k

/-- Every draw is in `[0, totalWeight]` for the remaining set it is applied to
(the range `randint(0, total_weight)` guarantees, stated of an arbitrary
stubbed stream). -/
def draws_in_range (draws : Nat → Nat) : Nat → List SRVRec → Nat → Bool
  | 0, _, _ => true
  | _ + 1, [], _ => true
  | fuel + 1, e :: es, k =>
    decide (draws k ≤ weight_sum (e :: es)) &&
      draws_in_range draws fuel (select_walk (e :: es) 0 (draws k)).2 (k + 1)

example :
    (sort_rfc2782 (fun k => if k = 0 then 50 else 0)
      [⟨0, 0, 1, "a"⟩, ⟨0, 10, 2, "b"⟩, ⟨0, 90, 3, "c"⟩] 0).1 =
      [⟨0, 90, 3, "c"⟩, ⟨0, 0, 1, "a"⟩, ⟨0, 10, 2, "b"⟩] := by decide

example :
    (sort_rfc2782 (fun _ => 0) [⟨20, 5, 1, "lo"⟩, ⟨10, 5, 2, "hi"⟩] 0).1 =
      [⟨10, 5, 2, "hi"⟩, ⟨20, 5, 1, "lo"⟩] := by decide

example :
    (get_solved_entries (fun _ => 0)
      { host := "_pg._tcp.x", port := "5432", totry := true, target := some "x" }
      [⟨7, 9, 5432, "."⟩] 0).1 = [] := by decide

example :
    (get_solved_entries (fun _ => 0)
      { host := "_pg._tcp.x", port := "5432", totry := true, target := some "x" }
      [] 0).1 = [{ host := "x", port := "5432" }] := by decide

example :
    resolve ⟨"", "", ""⟩
      (fun _ => [⟨0, 0, 5432, "pg1.example.com."⟩]) (fun _ => 0)
      ⟨some "_postgresql._tcp.example.com", some "5432", none, []⟩ =
      Except.ok ⟨some "pg1.example.com", some "5432", none, []⟩ := by decide

lemma select_walk_cons_perm :
    ∀ (es : List SRVRec) (csum r : Nat), es ≠ [] →
      List.Perm ((select_walk es csum r).1 :: (select_walk es csum r).2) es := by
  intro es
  induction es with
  | nil => intro _ _ h; exact absurd rfl h
  | cons e t ih =>
    intro csum r _
    cases t with
    | nil => simp [select_walk]
    | cons e2 t2 =>
      by_cases hc : csum + e.weight ≥ r
      · simp [select_walk, hc]
      · simp only [select_walk, if_neg hc]
        have h1 := ih (csum + e.weight) r (by simp)
        exact (List.Perm.swap e _ _).trans (h1.cons e)

lemma tier_loop_perm (draws : Nat → Nat) :
    ∀ (fuel : Nat) (es : List SRVRec) (k : Nat), es.length ≤ fuel →
      List.Perm (tier_loop draws fuel es k).1 es := by
  intro fuel
  induction fuel with
  | zero =>
    intro es k h
    have : es = [] := List.eq_nil_of_length_eq_zero (Nat.le_zero.mp h)
    simp [this, tier_loop]
  | succ n ih =>
    intro es k h
    cases es with
    | nil => simp [tier_loop]
    | cons e t =>
      have hp := select_walk_cons_perm (e :: t) 0 (draws k) (by simp)
      have hlen : (select_walk (e :: t) 0 (draws k)).2.length ≤ n := by
        have hl := hp.length_eq
        simp only [List.length_cons] at hl h
        omega
      have ih2 := ih (select_walk (e :: t) 0 (draws k)).2 (k + 1) hlen
      simp only [tier_loop]
      exact (ih2.cons _).trans hp

lemma process_tier_perm (draws : Nat → Nat) (es : List SRVRec) (k : Nat) :
    List.Perm (process_tier draws es k).1 es := by
  unfold process_tier
  by_cases h : es.length = 1
  · simp [h]
  · simp only [if_neg h]
    exact (tier_loop_perm draws _ _ _ (Nat.le_refl _)).trans
      (List.perm_insertionSort _ es)

lemma mem_process_tier_filter (draws : Nat → Nat) (ans : List SRVRec) (p k : Nat)
    (x : SRVRec)
    (hx : x ∈ (process_tier draws (ans.filter (fun e => e.priority = p)) k).1) :
    x.priority = p := by
  have hmem := (process_tier_perm draws _ k).mem_iff.mp hx
  have := List.mem_filter.mp hmem
  simpa using this.2

lemma sort_tiers_mem (draws : Nat → Nat) (ans : List SRVRec) :
    ∀ (ps : List Nat) (k : Nat) (x : SRVRec),
      x ∈ (sort_tiers draws ans ps k).1 → x.priority ∈ ps := by
  intro ps
  induction ps with
  | nil => simp [sort_tiers]
  | cons p pt ih =>
    intro k x hx
    simp only [sort_tiers, List.mem_append] at hx
    rcases hx with h | h
    · exact (mem_process_tier_filter draws ans p k x h) ▸ List.mem_cons_self p pt
    · exact List.mem_cons_of_mem p (ih _ x h)

lemma sort_tiers_pairwise (draws : Nat → Nat) (ans : List SRVRec) :
    ∀ (ps : List Nat) (k : Nat), ps.Pairwise (fun a b => a ≤ b) →
      List.Pairwise (fun a b : SRVRec => a.priority ≤ b.priority)
        (sort_tiers draws ans ps k).1 := by
  intro ps
  induction ps with
  | nil => simp [sort_tiers]
  | cons p pt ih =>
    intro k hps
    rw [List.pairwise_cons] at hps
    simp only [sort_tiers]
    rw [List.pairwise_append]
    refine ⟨?_, ih _ hps.2, ?_⟩
    · refine List.pairwise_of_forall_mem_list ?_
      intro a ha b hb
      rw [mem_process_tier_filter draws ans p k a ha,
        mem_process_tier_filter draws ans p k b hb]
    · intro a ha b hb
      rw [mem_process_tier_filter draws ans p k a ha]
      exact hps.1 _ (sort_tiers_mem draws ans pt _ b hb)

lemma sort_tiers_congr (draws : Nat → Nat) :
    ∀ (ps : List Nat) (ans1 ans2 : List SRVRec) (k : Nat),
      (∀ p ∈ ps, ans1.filter (fun e => e.priority = p) =
        ans2.filter (fun e => e.priority = p)) →
      sort_tiers draws ans1 ps k = sort_tiers draws ans2 ps k := by
  intro ps
  induction ps with
  | nil => intro ans1 ans2 k _; rfl
  | cons p pt ih =>
    intro ans1 ans2 k h
    simp only [sort_tiers]
    rw [h p (List.mem_cons_self p pt),
      ih ans1 ans2 _ (fun q hq => h q (List.mem_cons_of_mem p hq))]

lemma sort_tiers_partition (draws : Nat → Nat) :
    ∀ (ps : List Nat) (ans : List SRVRec) (k : Nat), ps.Nodup →
      (∀ e ∈ ans, e.priority ∈ ps) →
      List.Perm (sort_tiers draws ans ps k).1 ans := by
  intro ps
  induction ps with
  | nil =>
    intro ans k _ hall
    have : ans = [] := by
      cases ans with
      | nil => rfl
      | cons a t => exact absurd (hall a (List.mem_cons_self a t)) (List.not_mem_nil _)
    simp [this, sort_tiers]
  | cons p pt ih =>
    intro ans k hnd hall
    rw [List.nodup_cons] at hnd
    simp only [sort_tiers]
    have hcongr :
        sort_tiers draws ans pt
            (process_tier draws (ans.filter (fun e => e.priority = p)) k).2 =
          sort_tiers draws (ans.filter (fun e => ¬ e.priority = p)) pt
            (process_tier draws (ans.filter (fun e => e.priority = p)) k).2 := by
      apply sort_tiers_congr
      intro q hq
      rw [List.filter_filter]
      apply List.filter_congr
      intro e _
      have hqp : ¬ q = p := fun h2 => hnd.1 (h2 ▸ hq)
      by_cases hqe : e.priority = q
      · simp [hqe, hqp]
      · simp [hqe]
    have ihp :
        List.Perm
          (sort_tiers draws (ans.filter (fun e => ¬ e.priority = p)) pt
            (process_tier draws (ans.filter (fun e => e.priority = p)) k).2).1
          (ans.filter (fun e => ¬ e.priority = p)) := by
      apply ih _ _ hnd.2
      intro e he
      have he2 := List.mem_filter.mp he
      have hne : ¬ e.priority = p := by simpa using he2.2
      have hm := hall e he2.1
      rw [List.mem_cons] at hm
      rcases hm with h | h
      · exact absurd h hne
      · exact h
    have happ :
        List.Perm
          ((process_tier draws (ans.filter (fun e => e.priority = p)) k).1 ++
            (sort_tiers draws ans pt
              (process_tier draws (ans.filter (fun e => e.priority = p)) k).2).1)
          (ans.filter (fun e => e.priority = p) ++
            ans.filter (fun e => ¬ e.priority = p)) := by
      refine List.Perm.append (process_tier_perm draws _ k) ?_
      rw [hcongr]
      exact ihp
    refine happ.trans ?_
    have := List.filter_append_perm (fun e : SRVRec => decide (e.priority = p)) ans
    simpa [decide_not] using this

lemma sorted_priorities_nodup (ans : List SRVRec) : (sorted_priorities ans).Nodup :=
  (List.perm_insertionSort _ _).nodup_iff.mpr (List.nodup_dedup _)

lemma sorted_priorities_sorted (ans : List SRVRec) :
    (sorted_priorities ans).Pairwise (fun a b => a ≤ b) :=
  List.sorted_insertionSort _ _

lemma mem_sorted_priorities (ans : List SRVRec) (e : SRVRec) (he : e ∈ ans) :
    e.priority ∈ sorted_priorities ans := by
  rw [sorted_priorities, List.mem_insertionSort, List.mem_dedup]
  exact List.mem_map_of_mem _ he

/-- C10: for every sequence of SRV answer entries and every outcome of the
random draws (any stream, any starting counter), `sort_rfc2782` returns a
permutation of its input: every input entry appears in the output exactly
once, none dropped or duplicated. -/
theorem sort_rfc2782_perm (draws : Nat → Nat) (ans : List SRVRec) (k : Nat) :
    List.Perm (sort_rfc2782 draws ans k).1 ans :=
  sort_tiers_partition draws (sorted_priorities ans) ans k
    (sorted_priorities_nodup ans) (fun e he => mem_sorted_priorities ans e he)

/-- C2: for every answer list and every outcome of the random draws, the
output of `sort_rfc2782` is ordered by ascending numeric priority: every
record emitted from an answer of lower priority precedes every record emitted
from an answer of higher priority (tiers are processed in ascending priority
order). -/
theorem sort_rfc2782_priority_ordered (draws : Nat → Nat) (ans : List SRVRec)
    (k : Nat) :
    List.Pairwise (fun a b : SRVRec => a.priority ≤ b.priority)
      (sort_rfc2782 draws ans k).1 :=
  sort_tiers_pairwise draws ans (sorted_priorities ans) k
    (sorted_priorities_sorted ans)

lemma spec_select_eq :
    ∀ (es : List SRVRec) (csum r : Nat), es ≠ [] → r ≤ csum + weight_sum es →
      spec_select es csum r = some (select_walk es csum r) := by
  intro es
  induction es with
  | nil => intro _ _ h; exact absurd rfl h
  | cons e t ih =>
    intro csum r _ hr
    cases t with
    | nil =>
      have hc : csum + e.weight ≥ r := by
        simpa [weight_sum] using hr
      simp [spec_select, select_walk, hc]
    | cons e2 t2 =>
      by_cases hc : csum + e.weight ≥ r
      · simp [spec_select, select_walk, hc]
      · have hr2 : r ≤ csum + e.weight + weight_sum (e2 :: t2) := by
          simp only [weight_sum, List.map_cons, List.sum_cons] at hr ⊢
          omega
        have hih := ih (csum + e.weight) r (by simp) hr2
        simp only [spec_select, select_walk, if_neg hc] at hih ⊢
        rw [hih]
        rfl

lemma spec_walk_eq_tier_loop (draws : Nat → Nat) :
    ∀ (fuel : Nat) (es : List SRVRec) (k : Nat),
      draws_in_range draws fuel es k = true →
      spec_walk_aux draws fuel es k = (tier_loop draws fuel es k).1 := by
  intro fuel
  induction fuel with
  | zero => intro es k _; cases es <;> simp [spec_walk_aux, tier_loop]
  | succ n ih =>
    intro es k hdr
    cases es with
    | nil => simp [spec_walk_aux, tier_loop]
    | cons e t =>
      simp only [draws_in_range, Bool.and_eq_true, decide_eq_true_eq] at hdr
      have hsel := spec_select_eq (e :: t) 0 (draws k) (by simp)
        (by simpa using hdr.1)
      simp only [spec_walk_aux, tier_loop, hsel, ih _ _ hdr.2]

lemma dedup_all_eq :
    ∀ (l : List Nat) (p : Nat), (∀ x ∈ l, x = p) → l ≠ [] → l.dedup = [p] := by
  intro l
  induction l with
  | nil => intro _ _ h; exact absurd rfl h
  | cons a t ih =>
    intro p hall _
    have ha : a = p := hall a (List.mem_cons_self a t)
    cases t with
    | nil => simp [ha]
    | cons b t2 =>
      have hb : b = p := hall b (by simp)
      have hmem : a ∈ b :: t2 := by
        rw [ha, hb]
        exact List.mem_cons_self p t2
      rw [List.dedup_cons_of_mem hmem]
      exact ih p (fun x hx => hall x (List.mem_cons_of_mem a hx)) (by simp)

lemma sorted_priorities_single (es : List SRVRec) (p : Nat)
    (hpri : ∀ e ∈ es, e.priority = p) (hne : es ≠ []) :
    sorted_priorities es = [p] := by
  unfold sorted_priorities
  rw [dedup_all_eq _ p (by simpa using hpri) (by simpa using hne)]
  simp

lemma filter_priority_all (es : List SRVRec) (p : Nat)
    (hpri : ∀ e ∈ es, e.priority = p) :
    es.filter (fun e => e.priority = p) = es := by
  apply List.filter_eq_self.mpr
  intro e he
  simp [hpri e he]

/-- C1: for a priority tier with two or more entries and any stubbed draw
stream whose draws are each in `[0, totalWeight]` of the remaining set,
`sort_rfc2782` emits the tier exactly as the spec's documented walk does:
sort by ascending weight, then repeatedly select (and remove) the first entry
whose cumulative weight sum reaches or exceeds the draw.  Both sides are
functions of the entries and the draw stream, so the emitted order is
deterministic for a fixed stream. -/
theorem sort_rfc2782_single_tier_spec_walk (draws : Nat → Nat)
    (es : List SRVRec) (p k : Nat)
    (hpri : ∀ e ∈ es, e.priority = p) (hlen : 2 ≤ es.length)
    (hdr : draws_in_range draws (sort_by_weight es).length (sort_by_weight es) k
      = true) :
    (sort_rfc2782 draws es k).1 = spec_tier_walk draws es k := by
  have hne : es ≠ [] := by
    cases es with
    | nil => simp at hlen
    | cons a t => simp
  unfold sort_rfc2782
  rw [sorted_priorities_single es p hpri hne]
  simp only [sort_tiers]
  rw [filter_priority_all es p hpri]
  unfold process_tier
  have hl1 : ¬ es.length = 1 := by omega
  rw [if_neg hl1]
  rw [List.append_nil]
  unfold spec_tier_walk
  exact (spec_walk_eq_tier_loop draws _ _ k hdr).symm

/-- C1 witness: the spec's §8 tier of weights 0, 10, 90 with the stubbed
draw sequence 50, 0, 0. -/
theorem sort_rfc2782_single_tier_spec_walk_witness :
    (∀ e ∈ [(⟨0, 0, 1, "a"⟩ : SRVRec), ⟨0, 10, 2, "b"⟩, ⟨0, 90, 3, "c"⟩],
        e.priority = 0) ∧
    2 ≤ ([(⟨0, 0, 1, "a"⟩ : SRVRec), ⟨0, 10, 2, "b"⟩, ⟨0, 90, 3, "c"⟩]).length ∧
    draws_in_range (fun kk => if kk = 0 then 50 else 0)
      (sort_by_weight [⟨0, 0, 1, "a"⟩, ⟨0, 10, 2, "b"⟩, ⟨0, 90, 3, "c"⟩]).length
      (sort_by_weight [⟨0, 0, 1, "a"⟩, ⟨0, 10, 2, "b"⟩, ⟨0, 90, 3, "c"⟩]) 0 = true ∧
    (sort_rfc2782 (fun kk => if kk = 0 then 50 else 0)
        [⟨0, 0, 1, "a"⟩, ⟨0, 10, 2, "b"⟩, ⟨0, 90, 3, "c"⟩] 0).1 =
      spec_tier_walk (fun kk => if kk = 0 then 50 else 0)
        [⟨0, 0, 1, "a"⟩, ⟨0, 10, 2, "b"⟩, ⟨0, 90, 3, "c"⟩] 0 :=
  ⟨by decide, by decide, by decide,
    sort_rfc2782_single_tier_spec_walk (fun kk => if kk = 0 then 50 else 0)
      [⟨0, 0, 1, "a"⟩, ⟨0, 10, 2, "b"⟩, ⟨0, 90, 3, "c"⟩] 0 0
      (by decide) (by decide) (by decide)⟩

/-- C3: when the SRV lookup for a flagged record returns exactly one answer
whose target is the root domain `"."`, no replacement records are emitted,
regardless of the answer's priority, weight and port and of the record's own
fields. -/
theorem get_solved_entries_root_abort (draws : Nat → Nat) (hp : HostPort)
    (e : SRVRec) (k : Nat) (ht : e.target = ".") :
    (get_solved_entries draws hp [e] k).1 = [] := by
  simp [get_solved_entries, ht]

/-- C3 witness: one answer with target `"."` for a flagged record that even
carries a fallback target. -/
theorem get_solved_entries_root_abort_witness :
    (⟨7, 9, 5432, "."⟩ : SRVRec).target = "." ∧
    (get_solved_entries (fun _ => 0)
      { host := "_pg._tcp.x", port := "5432", totry := true, target := some "x" }
      [⟨7, 9, 5432, "."⟩] 0).1 = [] :=
  ⟨by decide, get_solved_entries_root_abort (fun _ => 0)
    { host := "_pg._tcp.x", port := "5432", totry := true, target := some "x" }
    ⟨7, 9, 5432, "."⟩ 0 (by decide)⟩

/-- C5: with `hostaddr` empty, when the comma-split port list is neither of
length one (which would be broadcast) nor of the host list's length,
classification fails with the configuration-mismatch `OperationalError`, and
`resolve` fails the same way whatever the DNS lookup would return (no lookup
is consulted). -/
theorem get_attempts_length_mismatch (env : Env) (params : Params)
    (draws : Nat → Nat)
    (hha : params.hostaddr.getD env.pghostaddr = "")
    (hm1 : (split_comma (params.port.getD env.pgport)).length ≠ 1)
    (hmn : (split_comma (params.port.getD env.pgport)).length ≠
      (split_comma (params.host.getD env.pghost)).length) :
    get_attempts env params =
      Except.error (PGError.cannotMatch
        (split_comma (params.host.getD env.pghost)).length
        (split_comma (params.port.getD env.pgport)).length) ∧
    ∀ lookup : String → List SRVRec,
      resolve env lookup draws params =
        Except.error (PGError.cannotMatch
          (split_comma (params.host.getD env.pghost)).length
          (split_comma (params.port.getD env.pgport)).length) := by
  have h1 : ¬ (params.hostaddr.getD env.pghostaddr ≠ "") := by simp [hha]
  have hbp : broadcast_ports (split_comma (params.host.getD env.pghost))
      (split_comma (params.port.getD env.pgport)) =
        split_comma (params.port.getD env.pgport) := by
    unfold broadcast_ports
    rw [if_neg hm1]
  have hga : get_attempts env params =
      Except.error (PGError.cannotMatch
        (split_comma (params.host.getD env.pghost)).length
        (split_comma (params.port.getD env.pgport)).length) := by
    simp only [get_attempts]
    rw [if_neg h1, hbp, if_pos hmn]
  exact ⟨hga, fun lookup => by simp [resolve, hga]⟩

/-- C5 witness: hosts `a,b` with ports `1,2,3`. -/
theorem get_attempts_length_mismatch_witness :
    ((⟨some "a,b", some "1,2,3", none, []⟩ : Params).hostaddr.getD
      (⟨"", "", ""⟩ : Env).pghostaddr = "") ∧
    (split_comma ((⟨some "a,b", some "1,2,3", none, []⟩ : Params).port.getD
      (⟨"", "", ""⟩ : Env).pgport)).length ≠ 1 ∧
    resolve ⟨"", "", ""⟩ (fun _ => []) (fun _ => 0)
        ⟨some "a,b", some "1,2,3", none, []⟩ =
      Except.error (PGError.cannotMatch 2 3) :=
  ⟨by decide, by decide,
    (get_attempts_length_mismatch ⟨"", "", ""⟩ ⟨some "a,b", some "1,2,3", none, []⟩
      (fun _ => 0) (by decide) (by decide) (by decide)).2 (fun _ => [])⟩

/-- C6: once classification produced at least one record, `resolve` fails with
the resolution-exhausted `OperationalError` precisely when the final record
list after resolution is empty, and no other error can be raised past
classification (individual lookup failures are absorbed by the lookup
abstraction, never propagated). -/
theorem resolve_exhausted_iff_empty (env : Env) (lookup : String → List SRVRec)
    (draws : Nat → Nat) (params : Params) (attempts : List HostPort)
    (hga : get_attempts env params = Except.ok attempts) (hne : attempts ≠ []) :
    (resolve env lookup draws params = Except.error PGError.noHostFound ↔
      (resolve_loop lookup draws attempts 0).1 = []) ∧
    ∀ err, resolve env lookup draws params = Except.error err →
      err = PGError.noHostFound := by
  cases attempts with
  | nil => exact absurd rfl hne
  | cons a rest =>
    have hres : resolve env lookup draws params =
        return_params params (resolve_loop lookup draws (a :: rest) 0).1 := by
      simp [resolve, hga]
    rw [hres]
    by_cases hemp : (resolve_loop lookup draws (a :: rest) 0).1 = []
    · simp [return_params, hemp]
    · simp [return_params, hemp]

/-- C6 witness: one flagged host whose lookup yields zero answers but that has
a fallback target, so the final list is non-empty and no error is raised. -/
theorem resolve_exhausted_iff_empty_witness :
    get_attempts ⟨"", "", ""⟩ ⟨some "_pg._tcp.example.com", some "5432", none, []⟩ =
      Except.ok
        [{ host := "_pg._tcp.example.com", port := "5432", totry := true,
           target := some "example.com" }] ∧
    ([{ host := "_pg._tcp.example.com", port := "5432", totry := true,
        target := some "example.com" }] : List HostPort) ≠ [] ∧
    (resolve ⟨"", "", ""⟩ (fun _ => []) (fun _ => 0)
        ⟨some "_pg._tcp.example.com", some "5432", none, []⟩ =
          Except.error PGError.noHostFound ↔
      (resolve_loop (fun _ => []) (fun _ => 0)
        [{ host := "_pg._tcp.example.com", port := "5432", totry := true,
           target := some "example.com" }] 0).1 = []) :=
  ⟨by decide, by decide,
    (resolve_exhausted_iff_empty ⟨"", "", ""⟩ (fun _ => []) (fun _ => 0)
      ⟨some "_pg._tcp.example.com", some "5432", none, []⟩
      [{ host := "_pg._tcp.example.com", port := "5432", totry := true,
         target := some "example.com" }]
      (by decide) (by decide)).1⟩

/-- C7: with a non-empty `hostaddr` (explicit or from the environment), the
classifier returns no candidates and `resolve` returns the parameter set
unchanged for every lookup and draw stream — even when the host and port
lists mismatch or contain SRV patterns. -/
theorem resolve_hostaddr_passthrough (env : Env) (params : Params)
    (hha : params.hostaddr.getD env.pghostaddr ≠ "") :
    get_attempts env params = Except.ok [] ∧
    ∀ (lookup : String → List SRVRec) (draws : Nat → Nat),
      resolve env lookup draws params = Except.ok params := by
  have hga : get_attempts env params = Except.ok [] := by
    simp only [get_attempts]
    rw [if_pos hha]
  exact ⟨hga, fun lookup draws => by simp [resolve, hga]⟩

/-- C7 witness: `hostaddr` set while the host list has SRV patterns and a
mismatched port list. -/
theorem resolve_hostaddr_passthrough_witness :
    ((⟨some "_pg._tcp.x,b", some "1,2,3", some "10.0.0.1", []⟩ : Params).hostaddr.getD
      (⟨"", "", ""⟩ : Env).pghostaddr ≠ "") ∧
    get_attempts ⟨"", "", ""⟩ ⟨some "_pg._tcp.x,b", some "1,2,3", some "10.0.0.1", []⟩ =
      Except.ok [] ∧
    resolve ⟨"", "", ""⟩ (fun _ => [⟨0, 0, 1, "y."⟩]) (fun _ => 0)
        ⟨some "_pg._tcp.x,b", some "1,2,3", some "10.0.0.1", []⟩ =
      Except.ok ⟨some "_pg._tcp.x,b", some "1,2,3", some "10.0.0.1", []⟩ :=
  ⟨by decide,
    (resolve_hostaddr_passthrough ⟨"", "", ""⟩
      ⟨some "_pg._tcp.x,b", some "1,2,3", some "10.0.0.1", []⟩ (by decide)).1,
    (resolve_hostaddr_passthrough ⟨"", "", ""⟩
      ⟨some "_pg._tcp.x,b", some "1,2,3", some "10.0.0.1", []⟩ (by decide)).2
      (fun _ => [⟨0, 0, 1, "y."⟩]) (fun _ => 0)⟩

lemma split_comma_chars_ne_nil : ∀ cs : List Char, split_comma_chars cs ≠ [] := by
  intro cs
  induction cs with
  | nil => simp [split_comma_chars]
  | cons c t ih =>
    by_cases hc : c = ','
    · simp [split_comma_chars, hc]
    · simp only [split_comma_chars, if_neg hc]
      cases h : split_comma_chars t with
      | nil => exact absurd h ih
      | cons g gs => simp

lemma split_comma_ne_nil (s : String) : split_comma s ≠ [] := by
  unfold split_comma
  intro h
  exact split_comma_chars_ne_nil s.data (List.map_eq_nil_iff.mp h)

lemma broadcast_ports_length (hosts_in ports_in : List String)
    (h : ports_in.length = 1 ∨ ports_in.length = hosts_in.length) :
    (broadcast_ports hosts_in ports_in).length = hosts_in.length := by
  unfold broadcast_ports
  rcases h with h | h
  · simp [h]
  · by_cases h1 : ports_in.length = 1
    · simp [h1]
    · rw [if_neg h1]
      exact h

lemma mem_broadcast_ports (hosts_in ports_in : List String) (p2 : String)
    (hne : ports_in ≠ []) (hmem : p2 ∈ broadcast_ports hosts_in ports_in) :
    p2 ∈ ports_in := by
  unfold broadcast_ports at hmem
  by_cases h1 : ports_in.length = 1
  · rw [if_pos h1] at hmem
    have := (List.eq_of_mem_replicate hmem)
    cases ports_in with
    | nil => exact absurd rfl hne
    | cons a t => rw [this]; exact List.mem_cons_self a t
  · rw [if_neg h1] at hmem
    exact hmem

lemma classify_pair_totry_false (h p2 : String)
    (hm : match_srv_rr h = none) (hp : str_lower p2 ≠ "srv") :
    (classify_pair h p2).totry = false := by
  simp [classify_pair, hm, hp]

/-- C8 counterexample: a parameter set with no SRV-pattern host and no `"SRV"`
port on which `resolve` is not the identity — the host and port lists
mismatch, so it raises the configuration-mismatch error instead of passing
the set through. -/
theorem resolve_identity_counterexample :
    (split_comma "a,b").all (fun h => (match_srv_rr h).isNone) = true ∧
    (split_comma "1,2,3").all (fun p2 => !(str_lower p2 == "srv")) = true ∧
    resolve ⟨"", "", ""⟩ (fun _ => []) (fun _ => 0)
        ⟨some "a,b", some "1,2,3", none, []⟩ =
      Except.error (PGError.cannotMatch 2 3) :=
  ⟨by decide, by decide, by decide⟩

/-- C8 amended: for every parameter set in which no comma-separated host
matches the SRV pattern and no port case-insensitively equals `"SRV"`, and
whose comma-split port list has length one or the host list's length,
`resolve` returns the parameter set unchanged with no DNS lookup performed
(the result is the same for every lookup). -/
theorem resolve_identity_amended (env : Env) (params : Params)
    (lookup : String → List SRVRec) (draws : Nat → Nat)
    (hhost : ∀ h ∈ split_comma (params.host.getD env.pghost), match_srv_rr h = none)
    (hport : ∀ p2 ∈ split_comma (params.port.getD env.pgport), str_lower p2 ≠ "srv")
    (hlen : (split_comma (params.port.getD env.pgport)).length = 1 ∨
      (split_comma (params.port.getD env.pgport)).length =
        (split_comma (params.host.getD env.pghost)).length) :
    resolve env lookup draws params = Except.ok params := by
  by_cases hha : params.hostaddr.getD env.pghostaddr = ""
  · have hga : get_attempts env params = Except.ok [] := by
      simp only [get_attempts]
      rw [if_neg (by simp [hha])]
      rw [if_neg (by simp [broadcast_ports_length _ _ hlen])]
      have hany : ¬ (((split_comma (params.host.getD env.pghost)).zip
          (broadcast_ports (split_comma (params.host.getD env.pghost))
            (split_comma (params.port.getD env.pgport)))).map
          (fun hp => classify_pair hp.1 hp.2)).any (fun hp => hp.totry) = true := by
        rw [List.any_eq_true]
        rintro ⟨x, hx, htr⟩
        rw [List.mem_map] at hx
        rcases hx with ⟨⟨h, p2⟩, hzip, hxeq⟩
        have hmz := List.of_mem_zip hzip
        have hm := hhost h hmz.1
        have hp := hport p2 (mem_broadcast_ports _ _ p2 (split_comma_ne_nil _) hmz.2)
        rw [← hxeq] at htr
        rw [classify_pair_totry_false h p2 hm hp] at htr
        exact Bool.false_ne_true htr
      rw [if_neg hany]
    simp [resolve, hga]
  · exact (resolve_hostaddr_passthrough env params hha).2 lookup draws

/-- C8 amended witness: two plain hosts with two plain ports pass through. -/
theorem resolve_identity_amended_witness :
    (∀ h ∈ split_comma ((⟨some "a,b", some "1,2", none, []⟩ : Params).host.getD
      (⟨"", "", ""⟩ : Env).pghost), match_srv_rr h = none) ∧
    (∀ p2 ∈ split_comma ((⟨some "a,b", some "1,2", none, []⟩ : Params).port.getD
      (⟨"", "", ""⟩ : Env).pgport), str_lower p2 ≠ "srv") ∧
    resolve ⟨"", "", ""⟩ (fun _ => [⟨0, 0, 1, "y."⟩]) (fun _ => 0)
        ⟨some "a,b", some "1,2", none, []⟩ =
      Except.ok ⟨some "a,b", some "1,2", none, []⟩ :=
  ⟨by decide, by decide,
    resolve_identity_amended ⟨"", "", ""⟩ ⟨some "a,b", some "1,2", none, []⟩
      (fun _ => [⟨0, 0, 1, "y."⟩]) (fun _ => 0)
      (by decide) (by decide) (by decide)⟩

lemma match_srv_rr_some (h t : String) (hm : match_srv_rr h = some t) : t ≠ "" := by
  simp only [match_srv_rr] at hm
  repeat' split at hm
  all_goals try exact Option.noConfusion hm
  have ht := Option.some.inj hm
  rename_i hg
  rw [← ht]
  intro hh
  exact hg (congrArg String.data hh)

lemma get_attempts_classified (env : Env) (params : Params) (l : List HostPort)
    (hp : HostPort) (hga : get_attempts env params = Except.ok l) (hmem : hp ∈ l) :
    ∃ a b, hp = classify_pair a b := by
  simp only [get_attempts] at hga
  split at hga
  · injection hga with h2
    rw [← h2] at hmem
    exact absurd hmem (List.not_mem_nil hp)
  · split at hga
    · exact absurd hga (by simp)
    · split at hga
      · injection hga with h2
        rw [← h2] at hmem
        rw [List.mem_map] at hmem
        rcases hmem with ⟨⟨a, b⟩, _, heq⟩
        exact ⟨a, b, heq.symm⟩
      · injection hga with h2
        rw [← h2] at hmem
        exact absurd hmem (List.not_mem_nil hp)

lemma get_attempts_target_nonempty (env : Env) (params : Params)
    (l : List HostPort) (hp : HostPort) (t : String)
    (hga : get_attempts env params = Except.ok l) (hmem : hp ∈ l)
    (ht : hp.target = some t) : t ≠ "" := by
  obtain ⟨a, b, rfl⟩ := get_attempts_classified env params l hp hga hmem
  cases hsm : match_srv_rr a with
  | none =>
    simp only [classify_pair, hsm] at ht
    split at ht <;> simp at ht
  | some u =>
    simp only [classify_pair, hsm, Option.some.injEq] at ht
    exact ht ▸ match_srv_rr_some a u hsm

/-- C4 counterexample: a flagged record carrying a parsed target whose port is
`"Srv"` — not the literal string `"SRV"` — for which a zero-answer lookup
emits nothing (the code compares the port case-insensitively), where the
claim as stated requires one fallback record. -/
theorem get_solved_entries_fallback_counterexample :
    get_attempts ⟨"", "", ""⟩
        ⟨some "_postgresql._tcp.db.example.com", some "Srv", none, []⟩ =
      Except.ok
        [{ host := "_postgresql._tcp.db.example.com", port := "Srv",
           totry := true, target := some "db.example.com" }] ∧
    ("Srv" : String) ≠ "SRV" ∧
    (get_solved_entries (fun _ => 0)
      { host := "_postgresql._tcp.db.example.com", port := "Srv", totry := true,
        target := some "db.example.com" } [] 0).1 = [] :=
  ⟨by decide, by decide, by decide⟩

/-- C4 amended: for every flagged endpoint record (as produced by the
classifier) whose SRV lookup yields zero answers, if the record carries a
parsed target and its port does not case-insensitively equal `"SRV"`, exactly
one record `{host: target, port: originalPort}` is emitted; otherwise
nothing. -/
theorem get_solved_entries_fallback_amended (env : Env) (params : Params)
    (l : List HostPort) (hp : HostPort) (draws : Nat → Nat) (k : Nat)
    (hga : get_attempts env params = Except.ok l) (hmem : hp ∈ l)
    (_htry : hp.totry = true) :
    (get_solved_entries draws hp [] k).1 =
      match hp.target with
      | some t =>
        if str_lower hp.port = "srv" then []
        else [{ host := t, port := hp.port }]
      | none => [] := by
  cases ht : hp.target with
  | none => simp [get_solved_entries, ht]
  | some t =>
    have htne : t ≠ "" := get_attempts_target_nonempty env params l hp t hga hmem ht
    by_cases hsrv : str_lower hp.port = "srv"
    · simp [get_solved_entries, ht, hsrv]
    · simp [get_solved_entries, ht, hsrv, htne]

/-- C4 amended witness: the spec's fallback-to-target example,
`_postgresql._tcp.db.example.com` with port `5432` and zero answers. -/
theorem get_solved_entries_fallback_amended_witness :
    get_attempts ⟨"", "", ""⟩
        ⟨some "_postgresql._tcp.db.example.com", some "5432", none, []⟩ =
      Except.ok
        [{ host := "_postgresql._tcp.db.example.com", port := "5432",
           totry := true, target := some "db.example.com" }] ∧
    ({ host := "_postgresql._tcp.db.example.com", port := "5432",
       totry := true, target := some "db.example.com" } : HostPort) ∈
      [({ host := "_postgresql._tcp.db.example.com", port := "5432",
          totry := true, target := some "db.example.com" } : HostPort)] ∧
    (get_solved_entries (fun _ => 0)
      { host := "_postgresql._tcp.db.example.com", port := "5432", totry := true,
        target := some "db.example.com" } [] 0).1 =
      [{ host := "db.example.com", port := "5432" }] :=
  ⟨by decide, by decide,
    get_solved_entries_fallback_amended ⟨"", "", ""⟩
      ⟨some "_postgresql._tcp.db.example.com", some "5432", none, []⟩
      [{ host := "_postgresql._tcp.db.example.com", port := "5432",
         totry := true, target := some "db.example.com" }]
      { host := "_postgresql._tcp.db.example.com", port := "5432", totry := true,
        target := some "db.example.com" }
      (fun _ => 0) 0 (by decide) (by decide) (by decide)⟩

lemma resolve_loop_eq_async (lookup : String → List SRVRec) (draws : Nat → Nat) :
    ∀ (l : List HostPort) (k : Nat),
      resolve_loop lookup draws l k = resolve_loop_async lookup draws l k := by
  intro l
  induction l with
  | nil => intro k; rfl
  | cons hp rest ih =>
    intro k
    by_cases ht : hp.totry
    · simp [resolve_loop, resolve_loop_async, resolve_srv_hp, resolve_srv_hp_async,
        ht, ih]
    · simp [resolve_loop, resolve_loop_async, ht, ih]

/-- C9: with the DNS collaborator abstracted as a lookup function (failures
mapped to zero answers) and a common draw stream, the blocking `resolve` and
the suspension-based `resolve_async` agree on every parameter set: same
output parameter sets, same errors — the two paths share this classification,
selection and rebuild logic and differ only in how the lookup suspends. -/
theorem resolve_eq_resolve_async (env : Env) (lookup : String → List SRVRec)
    (draws : Nat → Nat) (params : Params) :
    resolve env lookup draws params = resolve_async env lookup draws params := by
  unfold resolve resolve_async
  cases hga : get_attempts env params with
  | error err => rfl
  | ok l =>
    cases l with
    | nil => rfl
    | cons a rest =>
      show return_params params (resolve_loop lookup draws (a :: rest) 0).1 =
        return_params params (resolve_loop_async lookup draws (a :: rest) 0).1
      rw [resolve_loop_eq_async]

example : split_comma "a,,b" = ["a", "", "b"] := by decide
example : split_comma "" = [""] := by decide
example : match_srv_rr "_postgresql._tcp.db.example.com" = some "db.example.com" := by decide
example : match_srv_rr "db.example.com" = none := by decide
example : match_srv_rr "_a._b." = none := by decide
example : str_lower "SrV" = "srv" := by decide
example : strip_dots "pg1.example.com.." = "pg1.example.com" := by decide
example :
    get_attempts ⟨"", "", ""⟩ ⟨some "_pg._tcp.x,plain", some "SRV,5432", none, []⟩ =
      Except.ok
        [{ host := "_pg._tcp.x", port := "SRV", totry := true, target := some "x" },
         { host := "plain", port := "5432" }] := by decide
example :
    get_attempts ⟨"", "", ""⟩ ⟨some "a,b", some "1,2,3", none, []⟩ =
      Except.error (PGError.cannotMatch 2 3) := by decide
example :
    get_attempts ⟨"", "", ""⟩ ⟨some "a,b", some "1", none, []⟩ = Except.ok [] := by decide
